import Mathlib

/-!
Verification of the simulated market-data engine of `backend/server.py`
(JP Morgan Financial Data Visualization API).

The engine is embedded shallowly over exact rationals:

* Python floats are idealized as `ℚ`; `round(x, 2)` becomes `round2`,
  exact round-half-to-even (banker's rounding) at two decimals.
* Random draws (`np.random.normal`, `np.random.uniform`, `random.randint`)
  are passed in explicitly, one record per generated day or quote.
  A draw sampled from `normal(0, σ)` is modelled as `σ * z` with `z` the
  recorded standard-normal sample.
* `datetime.utcnow()` is modelled as a single integer `now` (seconds);
  `timedelta(days = k)` is `k * oneDay` with `oneDay = 86400`.
* The mutable `self.base_prices` dict is an association list threaded
  through each operation; the `TTLCache` entry for an endpoint is an
  `Option` value in the server state (a `TTLCache` membership test
  succeeds exactly on unexpired entries, so "present" here means
  "present and unexpired").
-/

/-- Python `round` at the integer level: round half to even (banker's
rounding), idealized over exact rationals. -/
def roundHalfEven (x : ℚ) : ℤ :=
  let n := ⌊x⌋
  let f := x - n
  if f < 1/2 then n
  else if 1/2 < f then n + 1
  else if Even n then n else n + 1

/-- Python `round(x, 2)`: two-decimal banker's rounding. -/
def round2 (x : ℚ) : ℚ := (roundHalfEven (x * 100) : ℚ) / 100

/-- Seconds per day; `timedelta(days=1)`. -/
def oneDay : ℤ := 86400

/-- `drift = 0.0002` in `generate_realistic_price_data`. -/
def drift : ℚ := 2/10000

/-- `volatility = 0.02` in `generate_realistic_price_data`. -/
def volatility : ℚ := 2/100

/-- The pydantic `StockPrice` model (one OHLCV point). -/
structure StockPrice where
  symbol : String
  timestamp : ℤ
  «open» : ℚ
  high : ℚ
  low : ℚ
  close : ℚ
  volume : ℤ
  vwap : Option ℚ
  deriving DecidableEq

/-- The random draws consumed by one iteration of the day loop of
`generate_realistic_price_data`.  `highShock`, `lowShock` and `volShock`
are standard-normal samples; the code's `np.random.normal(0, σ)` values
appear as `σ * shock` at the use sites. -/
structure DayDraws where
  /-- `np.random.normal(0, 1)` -/
  shock : ℚ
  /-- `np.random.uniform(0.5, 2.0)` -/
  dvFactor : ℚ
  /-- standard-normal factor of `np.random.normal(0, daily_volatility)` for `high` -/
  highShock : ℚ
  /-- standard-normal factor of `np.random.normal(0, daily_volatility)` for `low` -/
  lowShock : ℚ
  /-- `np.random.uniform(0.98, 1.02)` -/
  openFactor : ℚ
  /-- `random.randint(1000000, 10000000)` (support: positive integers) -/
  baseVolume : ℕ
  /-- standard-normal factor of `np.random.normal(0, 0.5)` -/
  volShock : ℚ
  deriving DecidableEq

/-- The simulator's mutable `self.base_prices` dictionary. -/
abbrev Store := List (String × ℚ)

/-- Python `dict` lookup (keys are unique; first match). -/
def dictGet : Store → String → Option ℚ
  | [], _ => none
  | (k', v') :: rest, k => if k' = k then some v' else dictGet rest k

/-- Python `dict` assignment: overwrite the entry if the key is present,
otherwise append a new entry (insertion order preserved). -/
def dictSet : Store → String → ℚ → Store
  | [], k, v => [(k, v)]
  | (k', v') :: rest, k, v => if k' = k then (k, v) :: rest else (k', v') :: dictSet rest k v

/-- Lines 99-100: `if symbol not in self.base_prices:
self.base_prices[symbol] = random.uniform(50, 500)`.  `baseDraw` is the
recorded `random.uniform(50, 500)` sample. -/
def registerSymbol (store : Store) (symbol : String) (baseDraw : ℚ) : Store :=
  match dictGet store symbol with
  | some _ => store
  | none => store ++ [(symbol, baseDraw)]

/-- One iteration of the day loop of `generate_realistic_price_data`
(lines 110-145): GBM step with positive floor on the evolving close,
OHLC derivation and reconciliation, volume and vwap.  Returns the new
evolving price together with the emitted `StockPrice`.  `int(...)` on
the volume truncates toward zero; its operand is nonnegative, where
truncation agrees with the floor. -/
def genDay (symbol : String) (now : ℤ) (days : ℕ) (i : ℕ) (currentPrice : ℚ)
    (d : DayDraws) : ℚ × StockPrice :=
  let date : ℤ := now - ((days : ℤ) - (i : ℤ)) * oneDay
  let price_change := currentPrice * (drift + volatility * d.shock)
  let current := max (currentPrice + price_change) (1/100)
  let daily_volatility := volatility * d.dvFactor
  let high0 := current * (1 + |daily_volatility * d.highShock|)
  let low0 := current * (1 - |daily_volatility * d.lowShock|)
  let open_price := current * d.openFactor
  let high := max high0 (max open_price current)
  let low := min low0 (min open_price current)
  let volume : ℤ := ⌊(d.baseVolume : ℚ) * (1 + |d.volShock|)⌋
  let vwap := (high + low + current) / 3
  (current,
    { symbol := symbol
      timestamp := date
      «open» := round2 open_price
      high := round2 high
      low := round2 low
      close := round2 current
      volume := volume
      vwap := some (round2 vwap) })

/-- The day loop itself: `fuel` days remain, `i` is the loop index,
`currentPrice` the evolving close. -/
def genFrom (symbol : String) (now : ℤ) (days : ℕ) (draws : ℕ → DayDraws) :
    ℕ → ℕ → ℚ → List StockPrice
  | 0, _, _ => []
  | fuel + 1, i, currentPrice =>
    let step := genDay symbol now days i currentPrice (draws i)
    step.2 :: genFrom symbol now days draws fuel (i + 1) step.1

/-- `FinancialDataSimulator.generate_realistic_price_data` (lines 97-147):
registers an unknown symbol with a uniform(50,500) base price, then runs
the day loop from the stored base price.  Returns the price list and the
resulting `base_prices` store. -/
def generate_realistic_price_data (store : Store) (symbol : String) (days : ℕ)
    (now : ℤ) (baseDraw : ℚ) (draws : ℕ → DayDraws) : List StockPrice × Store :=
  let store' := registerSymbol store symbol baseDraw
  let base_price := (dictGet store' symbol).getD 0
  (genFrom symbol now days draws days 0 base_price, store')

/-- The engine-level error taxonomy relevant to the modelled endpoints. -/
inductive ApiError where
  | invalidParameter
  deriving DecidableEq

/-- `get_stock_price_history` (lines 223-244).  FastAPI's
`Query(default=30, ge=1, le=365)` rejects an out-of-range `days` with a
parameter-validation error before the handler body runs; that bound check
is the `if` below.  The TTL cache in the handler is omitted here: a cache
entry can only exist for a previously validated `(symbol, days)` pair, so
it cannot affect the validation behaviour. -/
def get_stock_price_history (store : Store) (symbol : String) (days : ℤ)
    (now : ℤ) (baseDraw : ℚ) (draws : ℕ → DayDraws) :
    Except ApiError (List StockPrice × Store) :=
  if 1 ≤ days ∧ days ≤ 365 then
    Except.ok (generate_realistic_price_data store symbol.toUpper days.toNat now baseDraw draws)
  else
    Except.error ApiError.invalidParameter

/-- The pydantic `MarketData` model (one current quote). -/
structure MarketData where
  symbol : String
  current_price : ℚ
  change : ℚ
  change_percent : ℚ
  volume : ℤ
  market_cap : Option ℚ
  pe_ratio : Option ℚ
  timestamp : ℤ
  deriving DecidableEq

/-- The random draws consumed per symbol by `generate_market_data`. -/
structure QuoteDraws where
  /-- `np.random.uniform(0.95, 1.05)` -/
  priceFactor : ℚ
  /-- `np.random.uniform(0.98, 1.02)` -/
  prevFactor : ℚ
  /-- `random.randint(500000, 5000000)` -/
  volume : ℤ
  /-- `random.randint(1000000, 10000000)` -/
  capFactor : ℤ
  /-- `random.uniform(10, 35)` -/
  pe : ℚ
  deriving DecidableEq

/-- Python truthiness of an optional float: `None` and `0.0` are falsy. -/
def pyTruthy : Option ℚ → Bool
  | none => false
  | some c => c ≠ 0

/-- The per-symbol body of `generate_market_data` (lines 153-174): jitter
the stored base price into a current price, jitter that into a synthetic
previous close, derive change and change-percent, draw volume, market cap
(absent for SPY) and P/E (absent when `market_cap` is falsy).  Returns the
quote and the unrounded current price written back to `base_prices`. -/
def genQuote (now : ℤ) (base : ℚ) (symbol : String) (d : QuoteDraws) :
    MarketData × ℚ :=
  let current_price := base * d.priceFactor
  let prev_close := current_price * d.prevFactor
  let change := current_price - prev_close
  let change_percent := change / prev_close * 100
  let market_cap : Option ℚ :=
    if symbol ≠ "SPY" then some (current_price * d.capFactor) else none
  let pe_ratio : Option ℚ := if pyTruthy market_cap then some d.pe else none
  ({ symbol := symbol
     current_price := round2 current_price
     change := round2 change
     change_percent := round2 change_percent
     volume := d.volume
     market_cap := market_cap
     pe_ratio := pe_ratio
     timestamp := now }, current_price)

/-- The symbol loop of `generate_market_data`, threading `base_prices`:
each iteration reads the stored price and overwrites it with the new
unrounded current price (line 174).  Every iterated symbol is in the
store (the fixed universe is seeded in `__init__`); `getD 0` is never
exercised there. -/
def genMarketLoop (now : ℤ) (draws : ℕ → QuoteDraws) :
    Store → List String → ℕ → List MarketData × Store
  | store, [], _ => ([], store)
  | store, s :: rest, i =>
    let base := (dictGet store s).getD 0
    let q := genQuote now base s (draws i)
    let t := genMarketLoop now draws (dictSet store s q.2) rest (i + 1)
    (q.1 :: t.1, t.2)

/-- `FinancialDataSimulator.generate_market_data` (lines 149-176). -/
def generate_market_data (store : Store) (symbols : List String) (now : ℤ)
    (draws : ℕ → QuoteDraws) : List MarketData × Store :=
  genMarketLoop now draws store symbols 0

/-- The fixed symbol universe of `FinancialDataSimulator.__init__`. -/
def jpSymbols : List String :=
  ["JPM", "GS", "MS", "BAC", "C", "WFC", "AAPL", "MSFT", "GOOGL", "AMZN",
   "TSLA", "META", "NVDA", "SPY", "QQQ", "DIA", "IWM", "VTI", "XLF", "XLK"]

/-- The pydantic `MarketSummary` model. -/
structure MarketSummary where
  total_symbols : ℕ
  total_volume : ℤ
  total_market_cap : ℚ
  top_gainers : List MarketData
  top_losers : List MarketData
  most_active : List MarketData
  timestamp : ℤ
  deriving DecidableEq

instance descRelDecidable {α β : Type} [LinearOrder β] (f : α → β) :
    DecidableRel (fun a b : α => f b ≤ f a) :=
  fun a b => inferInstanceAs (Decidable (f b ≤ f a))

instance descRelTotal {α β : Type} [LinearOrder β] (f : α → β) :
    IsTotal α (fun a b : α => f b ≤ f a) :=
  ⟨fun a b => le_total (f b) (f a)⟩

instance descRelTrans {α β : Type} [LinearOrder β] (f : α → β) :
    IsTrans α (fun a b : α => f b ≤ f a) :=
  ⟨fun _ _ _ h1 h2 => le_trans h2 h1⟩

/-- Python `sorted(l, key=f, reverse=True)`: a stable sort, descending in
the key.  CPython's Timsort and insertion sort are both stable, so they
agree on every input. -/
def sortByDesc {α β : Type} [LinearOrder β] (f : α → β) (l : List α) : List α :=
  List.insertionSort (fun a b => f b ≤ f a) l

/-- The aggregation body of `get_market_summary` (lines 199-213), as a
function of the quote batch: sort by change-percent and by volume
descending, total the volume, total the market caps over the truthy ones
(`if md.market_cap` — Python truthiness, so `None` and `0.0` are both
skipped), and slice `[:5]` / `[-5:]` for the ranked lists. -/
def marketSummaryOf (now : ℤ) (market_data : List MarketData) : MarketSummary :=
  let sorted_by_change := sortByDesc (fun m => m.change_percent) market_data
  let sorted_by_volume := sortByDesc (fun m => m.volume) market_data
  { total_symbols := market_data.length
    total_volume := (market_data.map (fun m => m.volume)).sum
    total_market_cap :=
      (((market_data.filter (fun m => pyTruthy m.market_cap)).filterMap
        (fun m => m.market_cap)).sum)
    top_gainers := sorted_by_change.take 5
    top_losers := sorted_by_change.drop (sorted_by_change.length - 5)
    most_active := sorted_by_volume.take 5
    timestamp := now }

/-- The server state visible to `get_market_summary`: the simulator's
`base_prices` and the `TTLCache` slot under the key `"market_summary"`.
`TTLCache.__contains__` answers true exactly for unexpired entries, so a
`some` value models a present, unexpired entry (a call within the TTL of
the entry's creation); `none` models both absence and expiry. -/
structure ServerState where
  base_prices : Store
  summaryCache : Option MarketSummary
  deriving DecidableEq

/-- `get_market_summary` (lines 187-217): return the cached summary on a
hit, otherwise generate fresh market data (mutating `base_prices`),
aggregate, cache and return it. -/
def get_market_summary (st : ServerState) (now : ℤ) (draws : ℕ → QuoteDraws) :
    MarketSummary × ServerState :=
  match st.summaryCache with
  | some v => (v, st)
  | none =>
    let r := generate_market_data st.base_prices jpSymbols now draws
    let summary := marketSummaryOf now r.1
    (summary, { base_prices := r.2, summaryCache := some summary })

/-- Arithmetic mean (`np.mean`); an empty list yields `0`. -/
def listMean (l : List ℚ) : ℚ := l.sum / l.length

/-- The centered cross-product sum `Σ (xᵢ − mean x)(yᵢ − mean y)`.
`np.corrcoef`'s covariance normalization `1/(N-1)` cancels between the
numerator and denominator of a correlation entry, so it is omitted. -/
def covSum (x y : List ℚ) : ℚ :=
  ((x.zip y).map (fun p => (p.1 - listMean x) * (p.2 - listMean y))).sum

/-- One entry of `np.corrcoef`'s result.  The float entry is
`cov(x,y) / sqrt(var x · var y)`; `val c d` stands for `c / √d` with
`d ≠ 0`, and `nan` is IEEE NaN.  Over exact arithmetic the division
degenerates exactly when the variance product is zero (then the
covariance is zero too, giving numpy's `0/0 = nan` with a runtime
warning — no exception is raised). -/
inductive CorrVal where
  | nan
  | val (c d : ℚ)
  deriving DecidableEq

/-- One correlation entry from two series. -/
def corrEntry (x y : List ℚ) : CorrVal :=
  if covSum x x * covSum y y = 0 then CorrVal.nan
  else CorrVal.val (covSum x y) (covSum x x * covSum y y)

/-- `major_symbols` in `get_correlation_matrix` (line 403). -/
def majorSymbols : List String := ["JPM", "GS", "AAPL", "MSFT", "SPY"]

/-- The symbol loop of `get_correlation_matrix` (lines 406-409): generate
30 days of prices per basket symbol (threading `base_prices`) and keep the
closing series.  `baseDraws i` and `dayDraws i` are the draws consumed by
the `i`-th symbol's generation. -/
def corrLoop (now : ℤ) (baseDraws : ℕ → ℚ) (dayDraws : ℕ → ℕ → DayDraws) :
    Store → List String → ℕ → List (List ℚ) × Store
  | store, [], _ => ([], store)
  | store, s :: rest, i =>
    let r := generate_realistic_price_data store s 30 now (baseDraws i) (dayDraws i)
    let closes := r.1.map (fun p => p.close)
    let t := corrLoop now baseDraws dayDraws r.2 rest (i + 1)
    (closes :: t.1, t.2)

/-- The correlation computation of `get_correlation_matrix` (lines
393-412): the closing series of the five major symbols, then
`np.corrcoef` as the matrix of pairwise `corrEntry` values.  The handler
has no degenerate-series check: the matrix — NaN entries included — is
serialized and returned; `except` catches exceptions only, and numpy
emits none here. -/
def get_correlation_matrix (store : Store) (now : ℤ) (baseDraws : ℕ → ℚ)
    (dayDraws : ℕ → ℕ → DayDraws) : List (List CorrVal) × Store :=
  let r := corrLoop now baseDraws dayDraws store majorSymbols 0
  (r.1.map (fun x => r.1.map (fun y => corrEntry x y)), r.2)

/-! ### Rounding lemmas -/

theorem roundHalfEven_def (x : ℚ) : roundHalfEven x =
    if x - ⌊x⌋ < 1/2 then ⌊x⌋
    else if 1/2 < x - ⌊x⌋ then ⌊x⌋ + 1
    else if Even ⌊x⌋ then ⌊x⌋ else ⌊x⌋ + 1 := rfl

theorem floor_le_roundHalfEven (x : ℚ) : ⌊x⌋ ≤ roundHalfEven x := by
  rw [roundHalfEven_def]
  split_ifs <;> omega

theorem roundHalfEven_le_floor_add_one (x : ℚ) : roundHalfEven x ≤ ⌊x⌋ + 1 := by
  rw [roundHalfEven_def]
  split_ifs <;> omega

theorem roundHalfEven_mono {x y : ℚ} (h : x ≤ y) : roundHalfEven x ≤ roundHalfEven y := by
  rcases eq_or_lt_of_le (Int.floor_mono h) with hf | hf
  · rw [roundHalfEven_def, roundHalfEven_def, ← hf]
    have hxy : x - (⌊x⌋ : ℚ) ≤ y - (⌊x⌋ : ℚ) := by linarith
    split_ifs <;> first | omega | linarith
  · have h1 := roundHalfEven_le_floor_add_one x
    have h2 := floor_le_roundHalfEven y
    omega

theorem round2_mono {x y : ℚ} (h : x ≤ y) : round2 x ≤ round2 y := by
  unfold round2
  have h100 : x * 100 ≤ y * 100 := by linarith
  have hc : ((roundHalfEven (x * 100) : ℤ) : ℚ) ≤ ((roundHalfEven (y * 100) : ℤ) : ℚ) := by
    exact_mod_cast roundHalfEven_mono h100
  exact (div_le_div_iff_of_pos_right (by norm_num : (0 : ℚ) < 100)).mpr hc

/-! ### C1: the OHLC invariant -/

/-- The OHLC invariant together with nonnegative volume, on the rounded
fields of a returned point. -/
def OhlcOk (sp : StockPrice) : Prop :=
  sp.low ≤ sp.«open» ∧ sp.«open» ≤ sp.high ∧ sp.low ≤ sp.close ∧
    sp.close ≤ sp.high ∧ 0 ≤ sp.volume

instance (sp : StockPrice) : Decidable (OhlcOk sp) := by
  unfold OhlcOk
  infer_instance

theorem genDay_ohlc (symbol : String) (now : ℤ) (days i : ℕ) (c : ℚ) (d : DayDraws) :
    OhlcOk (genDay symbol now days i c d).2 := by
  simp only [genDay, OhlcOk]
  refine ⟨round2_mono ?_, round2_mono ?_, round2_mono ?_, round2_mono ?_, ?_⟩
  · exact le_trans (min_le_right _ _) (min_le_left _ _)
  · exact le_trans (le_max_left _ _) (le_max_right _ _)
  · exact le_trans (min_le_right _ _) (min_le_right _ _)
  · exact le_trans (le_max_right _ _) (le_max_right _ _)
  · refine Int.floor_nonneg.mpr (mul_nonneg (by positivity) ?_)
    have := abs_nonneg d.volShock
    linarith

theorem genFrom_ohlc (symbol : String) (now : ℤ) (days : ℕ) (draws : ℕ → DayDraws) :
    ∀ (fuel i : ℕ) (c : ℚ) (sp : StockPrice),
      sp ∈ genFrom symbol now days draws fuel i c → OhlcOk sp := by
  intro fuel
  induction fuel with
  | zero => intro i c sp h; simp [genFrom] at h
  | succ n ih =>
    intro i c sp h
    rw [genFrom] at h
    rcases List.mem_cons.mp h with h1 | h2
    · rw [h1]; exact genDay_ohlc symbol now days i c (draws i)
    · exact ih (i + 1) _ sp h2

/-- C1: every `StockPrice` returned by `generate_realistic_price_data`
(for `days ≥ 1` and any sequence of random draws) satisfies
`low ≤ open ≤ high`, `low ≤ close ≤ high` and `volume ≥ 0`, on the
returned (2-decimal-rounded) fields: the reconciliation `high =
max(high, open, close)`, `low = min(low, open, close)` runs before
rounding, and rounding is monotone, so the orderings survive it. -/
theorem c1_ohlc_invariant (store : Store) (symbol : String) (days : ℕ) (now : ℤ)
    (baseDraw : ℚ) (draws : ℕ → DayDraws) (_hdays : 1 ≤ days) (sp : StockPrice)
    (hsp : sp ∈ (generate_realistic_price_data store symbol days now baseDraw draws).1) :
    sp.low ≤ sp.«open» ∧ sp.«open» ≤ sp.high ∧ sp.low ≤ sp.close ∧
      sp.close ≤ sp.high ∧ 0 ≤ sp.volume :=
  genFrom_ohlc symbol now days draws days 0 _ sp hsp

/-- A fixed, simple sequence of day draws used to instantiate theorems
with hypotheses at concrete inputs. -/
def simpleDraws : ℕ → DayDraws := fun _ => ⟨0, 1, 0, 0, 1, 1000000, 0⟩

instance : Inhabited StockPrice := ⟨⟨"", 0, 0, 0, 0, 0, 0, none⟩⟩

theorem genFrom_length (symbol : String) (now : ℤ) (days : ℕ) (draws : ℕ → DayDraws) :
    ∀ (fuel i : ℕ) (c : ℚ), (genFrom symbol now days draws fuel i c).length = fuel := by
  intro fuel
  induction fuel with
  | zero => intro i c; rfl
  | succ n ih => intro i c; rw [genFrom]; simp [ih]

theorem headI_mem {α : Type} [Inhabited α] {l : List α} (h : l ≠ []) : l.headI ∈ l := by
  cases l with
  | nil => exact absurd rfl h
  | cons a t => simp

theorem c1_witness : 1 ≤ 1 ∧
    ((generate_realistic_price_data [("A", 100)] "A" 1 0 100 simpleDraws).1.headI.low ≤
        (generate_realistic_price_data [("A", 100)] "A" 1 0 100 simpleDraws).1.headI.«open» ∧
      (generate_realistic_price_data [("A", 100)] "A" 1 0 100 simpleDraws).1.headI.«open» ≤
        (generate_realistic_price_data [("A", 100)] "A" 1 0 100 simpleDraws).1.headI.high ∧
      (generate_realistic_price_data [("A", 100)] "A" 1 0 100 simpleDraws).1.headI.low ≤
        (generate_realistic_price_data [("A", 100)] "A" 1 0 100 simpleDraws).1.headI.close ∧
      (generate_realistic_price_data [("A", 100)] "A" 1 0 100 simpleDraws).1.headI.close ≤
        (generate_realistic_price_data [("A", 100)] "A" 1 0 100 simpleDraws).1.headI.high ∧
      0 ≤ (generate_realistic_price_data [("A", 100)] "A" 1 0 100 simpleDraws).1.headI.volume) :=
  ⟨le_refl 1,
    c1_ohlc_invariant [("A", 100)] "A" 1 0 100 simpleDraws (le_refl 1) _
      (headI_mem (by
        apply List.ne_nil_of_length_pos
        show 0 < (genFrom "A" 0 1 simpleDraws 1 0 _).length
        rw [genFrom_length]
        norm_num))⟩

/-! ### C2: length, ordering and spacing of the generated series -/

theorem genFrom_timestamp (symbol : String) (now : ℤ) (days : ℕ) (draws : ℕ → DayDraws) :
    ∀ (fuel i : ℕ) (c : ℚ) (j : ℕ), j < fuel →
      ((genFrom symbol now days draws fuel i c)[j]?.map StockPrice.timestamp) =
        some (now - ((days : ℤ) - ((i + j : ℕ) : ℤ)) * oneDay) := by
  intro fuel
  induction fuel with
  | zero => intro i c j hj; omega
  | succ n ih =>
    intro i c j hj
    rw [genFrom]
    cases j with
    | zero =>
      simp only [List.getElem?_cons_zero, Option.map_some']
      simp [genDay]
    | succ m =>
      have hm : m < n := by omega
      simp only [List.getElem?_cons_succ]
      rw [ih (i + 1) _ m hm]
      congr 2
      push_cast
      ring

/-- C2: for every symbol and every `days ≥ 1`, the generated series has
exactly `days` points, strictly increasing timestamps spaced exactly one
day apart (the `j`-th point sits at `now - (days - j)` days), and the
last point one day before `now` — within one sampling interval of the
call time. -/
theorem c2_series_shape (store : Store) (symbol : String) (days : ℕ) (now : ℤ)
    (baseDraw : ℚ) (draws : ℕ → DayDraws) (hdays : 1 ≤ days) :
    (generate_realistic_price_data store symbol days now baseDraw draws).1.length = days ∧
    List.Pairwise (fun a b => a.timestamp < b.timestamp)
      (generate_realistic_price_data store symbol days now baseDraw draws).1 ∧
    (∀ j, j < days →
      ((generate_realistic_price_data store symbol days now baseDraw draws).1[j]?.map
        StockPrice.timestamp) = some (now - ((days : ℤ) - (j : ℤ)) * oneDay)) ∧
    ((generate_realistic_price_data store symbol days now baseDraw draws).1.getLast?.map
      StockPrice.timestamp) = some (now - oneDay) := by
  have hlen : (generate_realistic_price_data store symbol days now baseDraw draws).1.length
      = days := genFrom_length symbol now days draws days 0 _
  have hts : ∀ j, j < days →
      ((generate_realistic_price_data store symbol days now baseDraw draws).1[j]?.map
        StockPrice.timestamp) = some (now - ((days : ℤ) - (j : ℤ)) * oneDay) := by
    intro j hj
    have h1 := genFrom_timestamp symbol now days draws days 0
      ((dictGet (registerSymbol store symbol baseDraw) symbol).getD 0) j hj
    simp only [Nat.zero_add] at h1
    exact h1
  refine ⟨hlen, ?_, hts, ?_⟩
  · rw [List.pairwise_iff_get]
    intro i j hij
    have hi : (i : ℕ) < days := by have := i.isLt; omega
    have hj : (j : ℕ) < days := by have := j.isLt; omega
    have hie := hts i hi
    have hje := hts j hj
    rw [List.getElem?_eq_getElem (by omega)] at hie hje
    simp only [Option.map_some'] at hie hje
    have hi' := Option.some.inj hie
    have hj' := Option.some.inj hje
    rw [List.get_eq_getElem, List.get_eq_getElem, hi', hj']
    have hlt : ((i : ℕ) : ℤ) < ((j : ℕ) : ℤ) := by exact_mod_cast hij
    have hmul : ((days : ℤ) - (j : ℕ)) * oneDay < ((days : ℤ) - (i : ℕ)) * oneDay := by
      have hd : ((days : ℤ) - (j : ℕ)) < ((days : ℤ) - (i : ℕ)) := by omega
      exact mul_lt_mul_of_pos_right hd (by norm_num [oneDay])
    linarith
  · have hlast := hts (days - 1) (by omega)
    have hgl : (generate_realistic_price_data store symbol days now baseDraw draws).1.getLast?
        = (generate_realistic_price_data store symbol days now baseDraw draws).1[days - 1]? := by
      rw [List.getLast?_eq_getElem?, hlen]
    rw [hgl, hlast]
    have hc : ((days - 1 : ℕ) : ℤ) = (days : ℤ) - 1 := by omega
    rw [hc]
    congr 2
    ring

theorem c2_witness : 1 ≤ 1 ∧
    ((generate_realistic_price_data [("A", 100)] "A" 1 0 100 simpleDraws).1.length = 1 ∧
    List.Pairwise (fun a b => a.timestamp < b.timestamp)
      (generate_realistic_price_data [("A", 100)] "A" 1 0 100 simpleDraws).1 ∧
    (∀ (j : ℕ), j < 1 →
      ((generate_realistic_price_data [("A", 100)] "A" 1 0 100 simpleDraws).1[j]?.map
        StockPrice.timestamp) = some (0 - (((1 : ℕ) : ℤ) - (j : ℤ)) * oneDay)) ∧
    ((generate_realistic_price_data [("A", 100)] "A" 1 0 100 simpleDraws).1.getLast?.map
      StockPrice.timestamp) = some (0 - oneDay)) :=
  ⟨le_refl 1, c2_series_shape [("A", 100)] "A" 1 0 100 simpleDraws (le_refl 1)⟩

/-! ### C3: out-of-range day counts are rejected -/

/-- C3: `get_stock_price_history` called with any `days` outside
`[1, 365]` — in particular `0` and `366` — fails with the
parameter-validation (`InvalidParameter`) error instead of clamping or
returning a sequence. -/
theorem c3_invalid_days (store : Store) (symbol : String) (days : ℤ) (now : ℤ)
    (baseDraw : ℚ) (draws : ℕ → DayDraws) (h : days < 1 ∨ 365 < days) :
    get_stock_price_history store symbol days now baseDraw draws =
      Except.error ApiError.invalidParameter := by
  unfold get_stock_price_history
  rw [if_neg (by omega : ¬(1 ≤ days ∧ days ≤ 365))]

theorem c3_witness :
    (((0 : ℤ) < 1 ∨ 365 < (0 : ℤ)) ∧ ((366 : ℤ) < 1 ∨ 365 < (366 : ℤ))) ∧
    get_stock_price_history [] "JPM" 0 0 100 simpleDraws =
      Except.error ApiError.invalidParameter ∧
    get_stock_price_history [] "JPM" 366 0 100 simpleDraws =
      Except.error ApiError.invalidParameter :=
  ⟨⟨Or.inl (by norm_num), Or.inr (by norm_num)⟩,
    c3_invalid_days [] "JPM" 0 0 100 simpleDraws (Or.inl (by norm_num)),
    c3_invalid_days [] "JPM" 366 0 100 simpleDraws (Or.inr (by norm_num))⟩

/-! ### C9: effect of price generation on the base-price store -/

theorem dictGet_append_of_some {store : Store} {k : String} {v : ℚ}
    (h : dictGet store k = some v) (l2 : Store) : dictGet (store ++ l2) k = some v := by
  induction store with
  | nil => simp [dictGet] at h
  | cons p rest ih =>
    rw [dictGet] at h
    rw [List.cons_append, dictGet]
    by_cases hk : p.1 = k
    · rw [if_pos hk] at h ⊢
      exact h
    · rw [if_neg hk] at h ⊢
      exact ih h

theorem dictGet_append_self {store : Store} {k : String}
    (h : dictGet store k = none) (v : ℚ) : dictGet (store ++ [(k, v)]) k = some v := by
  induction store with
  | nil => simp [dictGet]
  | cons p rest ih =>
    rw [dictGet] at h
    rw [List.cons_append, dictGet]
    by_cases hk : p.1 = k
    · rw [if_pos hk] at h
      exact absurd h (by simp)
    · rw [if_neg hk] at h ⊢
      exact ih h

theorem generate_store_eq (store : Store) (symbol : String) (days : ℕ) (now : ℤ)
    (baseDraw : ℚ) (draws : ℕ → DayDraws) :
    (generate_realistic_price_data store symbol days now baseDraw draws).2 =
      registerSymbol store symbol baseDraw := rfl

/-- C9: `generate_realistic_price_data` only reads the store for a symbol
that is already registered — the whole store is returned unchanged — and
for an unregistered symbol it appends exactly one entry, holding the
`uniform(50, 500)` draw (within `[50, 500]` whenever the draw is within
the distribution's support), an entry that every later price-history call
leaves in place with the same value. -/
theorem c9_store_effect (store : Store) (symbol : String) (days : ℕ) (now : ℤ)
    (baseDraw : ℚ) (draws : ℕ → DayDraws) :
    (∀ p, dictGet store symbol = some p →
      (generate_realistic_price_data store symbol days now baseDraw draws).2 = store) ∧
    (dictGet store symbol = none → 50 ≤ baseDraw → baseDraw ≤ 500 →
      (generate_realistic_price_data store symbol days now baseDraw draws).2 =
          store ++ [(symbol, baseDraw)] ∧
        dictGet (generate_realistic_price_data store symbol days now baseDraw draws).2 symbol =
          some baseDraw ∧
        50 ≤ baseDraw ∧ baseDraw ≤ 500 ∧
        (∀ (symbol2 : String) (days2 : ℕ) (now2 : ℤ) (baseDraw2 : ℚ) (draws2 : ℕ → DayDraws),
          dictGet (generate_realistic_price_data
            (generate_realistic_price_data store symbol days now baseDraw draws).2
            symbol2 days2 now2 baseDraw2 draws2).2 symbol = some baseDraw)) := by
  constructor
  · intro p hp
    rw [generate_store_eq, registerSymbol, hp]
  · intro hnone h50 h500
    have hreg : (generate_realistic_price_data store symbol days now baseDraw draws).2 =
        store ++ [(symbol, baseDraw)] := by
      rw [generate_store_eq, registerSymbol, hnone]
    have hget : dictGet (generate_realistic_price_data store symbol days now baseDraw draws).2
        symbol = some baseDraw := by
      rw [hreg]
      exact dictGet_append_self hnone baseDraw
    refine ⟨hreg, hget, h50, h500, ?_⟩
    intro symbol2 days2 now2 baseDraw2 draws2
    rw [generate_store_eq, registerSymbol]
    cases hs2 : dictGet (generate_realistic_price_data store symbol days now baseDraw draws).2
        symbol2 with
    | some q => exact hget
    | none => exact dictGet_append_of_some hget _

theorem c9_witness :
    (dictGet [("A", 100)] "A" = some 100 →
      (generate_realistic_price_data [("A", 100)] "A" 1 0 77 simpleDraws).2 = [("A", 100)]) ∧
    (dictGet [] "B" = none ∧ (50 : ℚ) ≤ 77 ∧ (77 : ℚ) ≤ 500) ∧
    ((generate_realistic_price_data [] "B" 1 0 77 simpleDraws).2 = [] ++ [("B", 77)] ∧
      dictGet (generate_realistic_price_data [] "B" 1 0 77 simpleDraws).2 "B" = some 77 ∧
      (50 : ℚ) ≤ 77 ∧ (77 : ℚ) ≤ 500 ∧
      (∀ (symbol2 : String) (days2 : ℕ) (now2 : ℤ) (baseDraw2 : ℚ) (draws2 : ℕ → DayDraws),
        dictGet (generate_realistic_price_data
          (generate_realistic_price_data [] "B" 1 0 77 simpleDraws).2
          symbol2 days2 now2 baseDraw2 draws2).2 "B" = some 77)) :=
  ⟨(c9_store_effect [("A", 100)] "A" 1 0 77 simpleDraws).1 100,
    ⟨rfl, by norm_num, by norm_num⟩,
    (c9_store_effect [] "B" 1 0 77 simpleDraws).2 rfl (by norm_num) (by norm_num)⟩

/-! ### C10: the positive floor does not protect `low` -/

/-- Draws whose `low` shock exceeds `1/daily_volatility`, driving the
derived low below zero. -/
def bigLowShockDraws : ℕ → DayDraws := fun _ => ⟨0, 1, 0, 100, 1, 1000000, 0⟩

/-- C10: the `max(…, 0.01)` clamp applies only to the evolving close;
for draws with `|normal shock| × daily_volatility > 1` the reconciled
minimum is the derived low and the returned point has `low < 0` — the
`low` field is guaranteed neither positive nor above the `0.01` floor. -/
theorem c10_low_can_be_negative :
    ∃ (store : Store) (symbol : String) (days : ℕ) (now : ℤ) (baseDraw : ℚ)
      (draws : ℕ → DayDraws) (sp : StockPrice),
      sp ∈ (generate_realistic_price_data store symbol days now baseDraw draws).1 ∧
        sp.low < 0 := by
  have habs2 : |(2 : ℚ)| = 2 := abs_of_nonneg (by norm_num)
  have hbase : ((dictGet (registerSymbol [("X", (100 : ℚ))] "X" 100) "X").getD 0 : ℚ) = 100 := by
    norm_num [registerSymbol, dictGet]
  refine ⟨[("X", 100)], "X", 1, 0, 100, bigLowShockDraws,
    (generate_realistic_price_data [("X", 100)] "X" 1 0 100 bigLowShockDraws).1.headI,
    headI_mem ?_, ?_⟩
  · apply List.ne_nil_of_length_pos
    show 0 < (genFrom "X" 0 1 bigLowShockDraws 1 0 _).length
    rw [genFrom_length]
    norm_num
  · show ((genFrom "X" 0 1 bigLowShockDraws 1 0
      ((dictGet (registerSymbol [("X", (100 : ℚ))] "X" 100) "X").getD 0)).headI).low < 0
    rw [hbase]
    show ((genDay "X" 0 1 0 100 (bigLowShockDraws 0)).2 ::
      genFrom "X" 0 1 bigLowShockDraws 0 1 _).headI.low < 0
    rw [List.headI]
    norm_num [genDay, bigLowShockDraws, round2, roundHalfEven_def, drift, volatility, habs2]

/-! ### C4: ranking in the market summary -/

theorem sortByDesc_sorted {α β : Type} [LinearOrder β] (f : α → β) (l : List α) :
    List.Sorted (fun a b => f b ≤ f a) (sortByDesc f l) :=
  List.sorted_insertionSort _ l

theorem sortByDesc_perm {α β : Type} [LinearOrder β] (f : α → β) (l : List α) :
    (sortByDesc f l).Perm l :=
  List.perm_insertionSort _ l

theorem sortByDesc_length {α β : Type} [LinearOrder β] (f : α → β) (l : List α) :
    (sortByDesc f l).length = l.length :=
  List.length_insertionSort _ l

/-- C4 (amended): in the market summary of any quote batch of size `n`,
`top_gainers` is the first `min(5, n)` of the descending
`change_percent` sort; `top_losers` has length `min(5, n)`, consists of
the `min(5, n)` lowest quotes by `change_percent`, but is itself in
DESCENDING `change_percent` order (the tail of the descending sort), not
ascending; `most_active` is the first `min(5, n)` of the descending
volume sort. -/
theorem c4_ranking (now : ℤ) (l : List MarketData) :
    ((marketSummaryOf now l).top_gainers.length = min 5 l.length ∧
      List.Pairwise (fun a b => b.change_percent ≤ a.change_percent)
        (marketSummaryOf now l).top_gainers) ∧
    ((marketSummaryOf now l).top_losers.length = min 5 l.length ∧
      List.Pairwise (fun a b => b.change_percent ≤ a.change_percent)
        (marketSummaryOf now l).top_losers ∧
      ∃ rest, l.Perm (rest ++ (marketSummaryOf now l).top_losers) ∧
        ∀ x ∈ rest, ∀ y ∈ (marketSummaryOf now l).top_losers,
          y.change_percent ≤ x.change_percent) ∧
    ((marketSummaryOf now l).most_active.length = min 5 l.length ∧
      List.Pairwise (fun a b => b.volume ≤ a.volume)
        (marketSummaryOf now l).most_active) := by
  simp only [marketSummaryOf]
  have hsc := sortByDesc_sorted (fun m : MarketData => m.change_percent) l
  have hsv := sortByDesc_sorted (fun m : MarketData => m.volume) l
  refine ⟨⟨?_, ?_⟩, ⟨?_, ?_, ?_⟩, ⟨?_, ?_⟩⟩
  · rw [List.length_take, sortByDesc_length]
  · exact hsc.sublist (List.take_sublist _ _)
  · rw [List.length_drop, sortByDesc_length]
    omega
  · exact hsc.sublist (List.drop_sublist _ _)
  · refine ⟨(sortByDesc (fun m : MarketData => m.change_percent) l).take
      ((sortByDesc (fun m : MarketData => m.change_percent) l).length - 5), ?_, ?_⟩
    · rw [List.take_append_drop]
      exact (sortByDesc_perm _ l).symm
    · have hp : List.Pairwise (fun a b : MarketData => b.change_percent ≤ a.change_percent)
          ((sortByDesc (fun m : MarketData => m.change_percent) l).take
            ((sortByDesc (fun m : MarketData => m.change_percent) l).length - 5) ++
          (sortByDesc (fun m : MarketData => m.change_percent) l).drop
            ((sortByDesc (fun m : MarketData => m.change_percent) l).length - 5)) := by
        rw [List.take_append_drop]
        exact hsc
      exact (List.pairwise_append.mp hp).2.2
  · rw [List.length_take, sortByDesc_length]
  · exact hsv.sublist (List.take_sublist _ _)

/-- A quote with `change_percent = 1` (for the C4 counterexample). -/
def mdLow : MarketData := ⟨"AAA", 10, 0, 1, 100, none, none, 0⟩

/-- A quote with `change_percent = 2` (for the C4 counterexample). -/
def mdHigh : MarketData := ⟨"BBB", 10, 0, 2, 50, none, none, 0⟩

/-- C4 fails as stated: on the batch `[mdLow, mdHigh]` (change-percents
`1` and `2`), `top_losers` comes out as `[mdHigh, mdLow]` — descending,
not ascending, in `change_percent`. -/
theorem c4_counterexample :
    (marketSummaryOf 0 [mdLow, mdHigh]).top_losers = [mdHigh, mdLow] ∧
    ¬ List.Sorted (fun a b : MarketData => a.change_percent ≤ b.change_percent)
      (marketSummaryOf 0 [mdLow, mdHigh]).top_losers := by
  have h : (marketSummaryOf 0 [mdLow, mdHigh]).top_losers = [mdHigh, mdLow] := by
    norm_num [marketSummaryOf, sortByDesc, List.orderedInsert, mdLow, mdHigh]
  refine ⟨h, ?_⟩
  rw [h]
  norm_num [List.sorted_cons, mdLow, mdHigh]

/-! ### C7: the market-cap total -/

theorem pyTruthy_none : pyTruthy none = false := rfl

theorem pyTruthy_some (c : ℚ) : pyTruthy (some c) = decide (c ≠ 0) := rfl

/-- C7: `total_market_cap` equals the sum of `market_cap` over exactly
the quotes whose market cap is present: absent caps are excluded, and a
present cap of any value — `0` included — contributes its value.  (The
code's Python-truthiness test `if md.market_cap` also skips a present
`0.0`, but a zero summand does not change a sum, so the stated equality
holds on every batch.) -/
theorem c7_total_market_cap (now : ℤ) (l : List MarketData) :
    (marketSummaryOf now l).total_market_cap =
      (l.filterMap (fun m => m.market_cap)).sum := by
  simp only [marketSummaryOf]
  induction l with
  | nil => rfl
  | cons m rest ih =>
    cases hm : m.market_cap with
    | none => simp [List.filter_cons, List.filterMap_cons, hm, pyTruthy_none, ih]
    | some c =>
      by_cases hc : c = 0
      · subst hc
        simp [List.filter_cons, List.filterMap_cons, hm, pyTruthy_some, ih]
      · simp [List.filter_cons, List.filterMap_cons, hm, pyTruthy_some, hc, ih]

/-! ### C5: cache hits are pure -/

/-- C5: when the summary cache holds an (unexpired) entry,
`get_market_summary` returns exactly the stored value and leaves the
whole server state — `base_prices` included — untouched; consequently a
second call within the TTL of a first call returns the identical summary
and the identical state, because the first call either found or
installed the cache entry that the second call hits. -/
theorem c5_cache_hit (st : ServerState) (now : ℤ) (draws : ℕ → QuoteDraws)
    (v : MarketSummary) (h : st.summaryCache = some v) :
    (get_market_summary st now draws = (v, st)) ∧
    (∀ (st2 : ServerState) (nowA : ℤ) (drawsA : ℕ → QuoteDraws)
        (nowB : ℤ) (drawsB : ℕ → QuoteDraws),
      get_market_summary (get_market_summary st2 nowA drawsA).2 nowB drawsB =
          ((get_market_summary st2 nowA drawsA).1, (get_market_summary st2 nowA drawsA).2) ∧
        (get_market_summary (get_market_summary st2 nowA drawsA).2 nowB drawsB).2.base_prices =
          (get_market_summary st2 nowA drawsA).2.base_prices) := by
  constructor
  · simp [get_market_summary, h]
  · intro st2 nowA drawsA nowB drawsB
    cases hc : st2.summaryCache with
    | some w => simp [get_market_summary, hc]
    | none => simp [get_market_summary, hc]

/-- A placeholder cached summary for instantiating C5 and C6. -/
def trivSummary : MarketSummary := ⟨0, 0, 0, [], [], [], 0⟩

/-- A fixed, simple sequence of quote draws. -/
def trivQuoteDraws : ℕ → QuoteDraws := fun _ => ⟨1, 1, 0, 0, 0⟩

theorem c5_witness :
    ((ServerState.mk [("JPM", 100)] (some trivSummary)).summaryCache = some trivSummary) ∧
    ((get_market_summary ⟨[("JPM", 100)], some trivSummary⟩ 0 trivQuoteDraws =
        (trivSummary, ⟨[("JPM", 100)], some trivSummary⟩)) ∧
    (∀ (st2 : ServerState) (nowA : ℤ) (drawsA : ℕ → QuoteDraws)
        (nowB : ℤ) (drawsB : ℕ → QuoteDraws),
      get_market_summary (get_market_summary st2 nowA drawsA).2 nowB drawsB =
          ((get_market_summary st2 nowA drawsA).1, (get_market_summary st2 nowA drawsA).2) ∧
        (get_market_summary (get_market_summary st2 nowA drawsA).2 nowB drawsB).2.base_prices =
          (get_market_summary st2 nowA drawsA).2.base_prices)) :=
  ⟨rfl, c5_cache_hit ⟨[("JPM", 100)], some trivSummary⟩ 0 trivQuoteDraws trivSummary rfl⟩

/-! ### C6: what `change` is actually computed from -/

/-- C6 fails as stated: with one tracked symbol whose stored reference
price is `100` and draws `priceFactor = 21/20`, `prevFactor = 1`, the
returned quote has `current_price = 105` and `change = 0`, while
`current_price − previous_reference = 105 − 100 = 5 ≠ 0`: `change` is
not `current_price − previous_reference`. -/
theorem c6_counterexample :
    ((generate_market_data [("JPM", 100)] ["JPM"] 0 (fun _ => ⟨21/20, 1, 0, 0, 0⟩)).1.map
      (fun m => (m.change, m.current_price))) = [((0 : ℚ), (105 : ℚ))] ∧
    (0 : ℚ) ≠ 105 - 100 := by
  constructor
  · norm_num [generate_market_data, genMarketLoop, genQuote, dictGet, dictSet, pyTruthy,
      round2, roundHalfEven_def]
  · norm_num

/-- C6 (amended): for the first tracked symbol with stored reference
`base`, the quote's fields derive from the jittered current price
`cur = base * priceFactor` and the synthetic previous close
`prev = cur * prevFactor` (a jitter of the NEW current price, not the
stored reference): `change = round2 (cur − prev)` and
`change_percent = round2 ((cur − prev) / prev * 100)`. -/
theorem c6_change_from_synthetic_prev (store : Store) (sym : String)
    (rest : List String) (now : ℤ) (draws : ℕ → QuoteDraws) (base : ℚ)
    (h : dictGet store sym = some base) :
    ∃ q qs, (generate_market_data store (sym :: rest) now draws).1 = q :: qs ∧
      q.current_price = round2 (base * (draws 0).priceFactor) ∧
      q.change = round2 (base * (draws 0).priceFactor -
        base * (draws 0).priceFactor * (draws 0).prevFactor) ∧
      q.change_percent = round2 ((base * (draws 0).priceFactor -
        base * (draws 0).priceFactor * (draws 0).prevFactor) /
        (base * (draws 0).priceFactor * (draws 0).prevFactor) * 100) := by
  refine ⟨(genQuote now base sym (draws 0)).1,
    (genMarketLoop now draws (dictSet store sym (genQuote now base sym (draws 0)).2)
      rest 1).1, ?_, ?_, ?_, ?_⟩
  · show (genMarketLoop now draws store (sym :: rest) 0).1 = _
    rw [genMarketLoop]
    simp [h]
  · simp [genQuote]
  · simp [genQuote]
  · simp [genQuote]

theorem c6_witness :
    (dictGet [("JPM", (100 : ℚ))] "JPM" = some 100) ∧
    (∃ q qs, (generate_market_data [("JPM", 100)] ("JPM" :: []) 0 trivQuoteDraws).1 = q :: qs ∧
      q.current_price = round2 (100 * (trivQuoteDraws 0).priceFactor) ∧
      q.change = round2 (100 * (trivQuoteDraws 0).priceFactor -
        100 * (trivQuoteDraws 0).priceFactor * (trivQuoteDraws 0).prevFactor) ∧
      q.change_percent = round2 ((100 * (trivQuoteDraws 0).priceFactor -
        100 * (trivQuoteDraws 0).priceFactor * (trivQuoteDraws 0).prevFactor) /
        (100 * (trivQuoteDraws 0).priceFactor * (trivQuoteDraws 0).prevFactor) * 100)) :=
  ⟨by norm_num [dictGet],
    c6_change_from_synthetic_prev [("JPM", 100)] "JPM" [] 0 trivQuoteDraws 100
      (by norm_num [dictGet])⟩

/-! ### C8: degenerate series and NaN in the correlation matrix -/

/-- Day draws whose GBM shock `-1/100` exactly cancels the drift
(`drift + volatility * (-1/100) = 0`), freezing the price path. -/
def constShockDraws : ℕ → DayDraws := fun _ => ⟨-1/100, 1, 0, 0, 1, 1000000, 0⟩

theorem genFrom_const_closes (s : String) (now : ℤ) (days : ℕ) :
    ∀ (fuel i : ℕ), (genFrom s now days constShockDraws fuel i 100).map
      (fun p => p.close) = List.replicate fuel (100 : ℚ) := by
  have hcur : max ((100 : ℚ) + 100 * (drift + volatility * (-1/100))) (1/100) = 100 := by
    norm_num [drift, volatility]
  intro fuel
  induction fuel with
  | zero => intro i; rfl
  | succ n ih =>
    intro i
    rw [genFrom, List.map_cons, List.replicate_succ]
    have hstep : (genDay s now days i 100 (constShockDraws i)).1 = 100 := by
      simp only [genDay, constShockDraws]
      exact hcur
    have hclose : (genDay s now days i 100 (constShockDraws i)).2.close = 100 := by
      simp only [genDay, constShockDraws]
      rw [hcur]
      norm_num [round2, roundHalfEven_def]
    rw [hclose, hstep, ih (i + 1)]

theorem listMean_replicate (n : ℕ) (c : ℚ) (hn : n ≠ 0) :
    listMean (List.replicate n c) = c := by
  rw [listMean, List.sum_replicate, List.length_replicate, nsmul_eq_mul, mul_comm,
    mul_div_assoc, div_self (by exact_mod_cast hn), mul_one]

theorem covSum_replicate_self (n : ℕ) (c : ℚ) :
    covSum (List.replicate n c) (List.replicate n c) = 0 := by
  cases n with
  | zero => rfl
  | succ m =>
    rw [covSum, listMean_replicate _ _ (Nat.succ_ne_zero m)]
    simp [List.zip_replicate]

theorem corrLoop_const (st : Store) (now : ℤ) (bd : ℕ → ℚ) :
    ∀ (syms : List String) (i : ℕ), (∀ s ∈ syms, dictGet st s = some 100) →
      corrLoop now bd (fun _ => constShockDraws) st syms i =
        (List.replicate syms.length (List.replicate 30 (100 : ℚ)), st) := by
  intro syms
  induction syms with
  | nil => intro i _; rfl
  | cons s rest ih =>
    intro i hall
    have hs : dictGet st s = some 100 := hall s (List.mem_cons_self s rest)
    have hstore : (generate_realistic_price_data st s 30 now (bd i) constShockDraws).2 = st := by
      rw [generate_store_eq, registerSymbol, hs]
    have hbase : ((dictGet (registerSymbol st s (bd i)) s).getD 0 : ℚ) = 100 := by
      rw [registerSymbol, hs, hs]
      rfl
    have hcloses : (generate_realistic_price_data st s 30 now (bd i) constShockDraws).1.map
        (fun p => p.close) = List.replicate 30 (100 : ℚ) := by
      show (genFrom s now 30 constShockDraws 30 0
        ((dictGet (registerSymbol st s (bd i)) s).getD 0)).map (fun p => p.close) = _
      rw [hbase]
      exact genFrom_const_closes s now 30 30 0
    rw [corrLoop]
    simp only [hstore, hcloses]
    rw [ih (i + 1) (fun t ht => hall t (List.mem_cons_of_mem s ht))]
    rfl

/-- The base-price store with the five correlation basket symbols all at
reference price 100 (for the C8 instantiations). -/
def store5 : Store :=
  [("JPM", 100), ("GS", 100), ("AAPL", 100), ("MSFT", 100), ("SPY", 100)]

theorem store5_all : ∀ s ∈ majorSymbols, dictGet store5 s = some 100 := by
  intro s hs
  simp only [majorSymbols, List.mem_cons, List.not_mem_nil, or_false] at hs
  rcases hs with h | h | h | h | h <;> subst h <;> simp [store5, dictGet]

/-- C8 fails as stated: with all five basket symbols at reference price
100 and draws that freeze every price path (a zero-variance closing
series for each symbol), `get_correlation_matrix` raises no error and
returns a matrix every entry of which is NaN. -/
theorem c8_counterexample :
    (get_correlation_matrix store5 0 (fun _ => 100) (fun _ => constShockDraws)).1 =
      List.replicate 5 (List.replicate 5 CorrVal.nan) := by
  show ((corrLoop 0 (fun _ => 100) (fun _ => constShockDraws) store5 majorSymbols 0).1.map
      (fun x => (corrLoop 0 (fun _ => 100) (fun _ => constShockDraws) store5
        majorSymbols 0).1.map (fun y => corrEntry x y))) = _
  rw [corrLoop_const store5 0 (fun _ => 100) majorSymbols 0 store5_all]
  simp only [List.map_replicate]
  have : corrEntry (List.replicate 30 (100 : ℚ)) (List.replicate 30 (100 : ℚ)) =
      CorrVal.nan := by
    rw [corrEntry, covSum_replicate_self]
    norm_num
  rw [this]
  rfl

/-- C8 (amended): the correlation operation has no error path at all —
it always returns a matrix — and whenever the `i`-th generated closing
series is degenerate (zero variance, `covSum c c = 0`), the returned
matrix's `i`-th diagonal entry is NaN: degenerate input produces silent
NaN entries, not a `DegenerateSeries` error. -/
theorem c8_degenerate_series_nan (store : Store) (now : ℤ) (bd : ℕ → ℚ)
    (dd : ℕ → ℕ → DayDraws) (i : ℕ) (c : List ℚ)
    (hc : (corrLoop now bd dd store majorSymbols 0).1[i]? = some c)
    (hvar : covSum c c = 0) :
    ∃ row, (get_correlation_matrix store now bd dd).1[i]? = some row ∧
      row[i]? = some CorrVal.nan := by
  refine ⟨(corrLoop now bd dd store majorSymbols 0).1.map (fun y => corrEntry c y), ?_, ?_⟩
  · show ((corrLoop now bd dd store majorSymbols 0).1.map
      (fun x => (corrLoop now bd dd store majorSymbols 0).1.map (fun y => corrEntry x y)))[i]? = _
    rw [List.getElem?_map, hc, Option.map_some']
  · rw [List.getElem?_map, hc, Option.map_some']
    rw [corrEntry, hvar]
    norm_num

theorem c8_witness :
    ((corrLoop 0 (fun _ => 100) (fun _ => constShockDraws) store5 majorSymbols 0).1[0]? =
      some (List.replicate 30 (100 : ℚ))) ∧
    covSum (List.replicate 30 (100 : ℚ)) (List.replicate 30 (100 : ℚ)) = 0 ∧
    (∃ row, (get_correlation_matrix store5 0 (fun _ => 100) (fun _ => constShockDraws)).1[0]? =
        some row ∧ row[0]? = some CorrVal.nan) := by
  have hc : (corrLoop 0 (fun _ => 100) (fun _ => constShockDraws) store5
      majorSymbols 0).1[0]? = some (List.replicate 30 (100 : ℚ)) := by
    rw [corrLoop_const store5 0 (fun _ => 100) majorSymbols 0 store5_all]
    rfl
  exact ⟨hc, covSum_replicate_self 30 100,
    c8_degenerate_series_nan store5 0 (fun _ => 100) (fun _ => constShockDraws) 0
      (List.replicate 30 (100 : ℚ)) hc (covSum_replicate_self 30 100)⟩
